import Mathlib

/-!
Verification of the data synthesis and reshaping pipeline of `src/app.py`:
the Generator `make_data(seed, days)` and the Shaper (filter, optional
7-day rolling mean, pivot).  Calendar dates are modelled as integer day
numbers (days since 1970-01-01, which was a Thursday); real-valued draws
are modelled as rationals; the numpy generator is modelled as an abstract
deterministic stream (state type plus the two draw primitives the app
uses), threaded through the computation in the exact order of the source.
-/

namespace StreamlitApp

/-- Daily metric record: one row of the long-form table built by `make_data`
(columns `date, city, orders, revenue, lat, lon, weekday` in `src/app.py`). -/
structure Record where
  date : ℤ
  city : String
  orders : ℤ
  revenue : ℚ
  lat : ℚ
  lon : ℚ
  weekday : String
deriving DecidableEq

/-- Geo point of the synthetic point cloud (`pts` in `make_data`). -/
structure GeoPoint where
  city : String
  lat : ℚ
  lon : ℚ
  volume : ℚ
deriving DecidableEq

/-- Abstract deterministic pseudo-random source standing for
`np.random.default_rng(seed)`: a state type, an `init` from the seed, and
the two draw primitives the app uses (`rng.integers(lo, hi)` and
`rng.normal(mu, sigma)`), each returning a value together with the next
state.  Any fixed `RNG` instance is a pure function of its state, which is
exactly the determinism contract of a seeded numpy generator. -/
structure RNG (σ : Type) where
  init : ℤ → σ
  integers : ℤ → ℤ → σ → ℤ × σ
  normal : ℚ → ℚ → σ → ℚ × σ

/-- Draw `n` successive normal samples (`rng.normal(mu, sigma, size=n)`). -/
def drawNormals (g : RNG σ) (mu sigma : ℚ) : Nat → σ → List ℚ × σ
  | 0, st => ([], st)
  | n + 1, st =>
      let x := g.normal mu sigma st
      let xs := drawNormals g mu sigma n x.2
      (x.1 :: xs.1, xs.2)

/-- Weekday name of an integer day number (`df["date"].dt.day_name()`);
day 0 (1970-01-01) was a Thursday. -/
def dayName (d : ℤ) : String :=
  ["Thursday", "Friday", "Saturday", "Sunday",
   "Monday", "Tuesday", "Wednesday"].getD (d % 7).toNat ""

/-- Model of `np.linspace(a, b, n)`: `n` evenly spaced points from `a` to
`b` inclusive (a single point sits at `a`, matching numpy). -/
def linspace (a b : ℚ) (n : Nat) : List ℚ :=
  if n ≤ 1 then (List.range n).map (fun _ => a)
  else (List.range n).map (fun i : ℕ => a + (b - a) * (i : ℚ) / ((n : ℚ) - 1))

/-- Model of `pd.date_range(end - Timedelta(days=days-1), end, freq="D")`:
empty whenever the start lies after the end (which is the case exactly for
`days ≤ 0`), otherwise the `days` consecutive day numbers ending at `endD`. -/
def dateRange (endD : ℤ) (days : ℤ) : List ℤ :=
  if days ≤ 0 then []
  else (List.range days.toNat).map (fun i : ℕ => endD - (days - 1) + (i : ℤ))

/-- The four city centers of `make_data`, in dict order. -/
def cityList : List (String × ℚ × ℚ) :=
  [("Pune", 18.5204, 73.8567), ("Mumbai", 19.0760, 72.8777),
   ("Delhi", 28.6139, 77.2090), ("Bengaluru", 12.9716, 77.5946)]

/-- Price per order by city (the `price` dict of the source; the loop only
ever looks up the four listed cities, so the fallback is never reached). -/
def priceOf (c : String) : ℚ :=
  if c = "Pune" then 350 else if c = "Mumbai" then 420
  else if c = "Delhi" then 390 else if c = "Bengaluru" then 410 else 0

/-- One iteration of the per-city loop of `make_data`: draw the baseline
`rng.integers(80, 200)`, the daily noise `rng.normal(0, 20, size=n)` and the
price noise `rng.normal(0, 15, size=n)`, form
`orders = np.clip(base + noise + trend, 10, None).round()` (clip to a lower
bound is `max · 10`) and `revenue = orders * (price + price_noise)`, and
emit one record per date. -/
def genCityRows (g : RNG σ) (dates : List ℤ) (city : String) (la lo : ℚ)
    (st : σ) : List Record × σ :=
  let n := dates.length
  let b := g.integers 80 200 st
  let nz := drawNormals g 0 20 n b.2
  let trend := linspace (-10) 10 n
  let pz := drawNormals g 0 15 n nz.2
  let recs := dates.enum.map (fun p =>
    let o : ℤ := round (max ((b.1 : ℚ) + nz.1.getD p.1 0 + trend.getD p.1 0) 10)
    { date := p.2, city := city, orders := o,
      revenue := (o : ℚ) * (priceOf city + pz.1.getD p.1 0),
      lat := la, lon := lo, weekday := dayName p.2 })
  (recs, pz.2)

/-- The full per-city loop of `make_data`, threading the generator state
from one city to the next in dict order. -/
def genRows (g : RNG σ) (dates : List ℤ) :
    List (String × ℚ × ℚ) → σ → List Record × σ
  | [], st => ([], st)
  | c :: rest, st =>
      let hd := genCityRows g dates c.1 c.2.1 c.2.2 st
      let tl := genRows g dates rest hd.2
      (hd.1 ++ tl.1, tl.2)

/-- The inner 400-point loop of the geo point cloud: each point draws a lat
jitter `rng.normal(0, 0.01)`, a lon jitter `rng.normal(0, 0.01)` and a
volume `max(0, rng.normal(100, 40))`, in that order. -/
def genCityPts (g : RNG σ) (city : String) (la lo : ℚ) :
    Nat → σ → List GeoPoint × σ
  | 0, st => ([], st)
  | n + 1, st =>
      let a := g.normal 0 (1 / 100) st
      let b := g.normal 0 (1 / 100) a.2
      let v := g.normal 100 40 b.2
      let rest := genCityPts g city la lo n v.2
      ({ city := city, lat := la + a.1, lon := lo + b.1,
         volume := max 0 v.1 } :: rest.1, rest.2)

/-- The per-city geo loop of `make_data` (400 points per city). -/
def genGeo (g : RNG σ) : List (String × ℚ × ℚ) → σ → List GeoPoint × σ
  | [], st => ([], st)
  | c :: rest, st =>
      let hd := genCityPts g c.1 c.2.1 c.2.2 400 st
      let tl := genGeo g rest hd.2
      (hd.1 ++ tl.1, tl.2)

/-- Model of `make_data(seed, days)` of `src/app.py`.  The ambient
`pd.Timestamp.today().normalize()` is made an explicit `today` parameter
(the calendar day of the call), so the function is a pure function of the
generator, seed, day count and calendar day. -/
def make_data (g : RNG σ) (seed days today : ℤ) :
    List Record × List GeoPoint :=
  let st0 := g.init seed
  let dates := dateRange today days
  let rows := genRows g dates cityList st0
  let pts := genGeo g cityList rows.2
  (rows.1, pts.1)

/-- Metric selector of the sidebar: one of the two numeric columns. -/
inductive Metric where
  | orders
  | revenue
deriving DecidableEq

/-- Value of the selected metric column in a record. -/
def metricValue (m : Metric) (r : Record) : ℚ :=
  match m with
  | .orders => (r.orders : ℚ)
  | .revenue => r.revenue

/-- View parameters from the sidebar: selected cities (`city_filter`),
metric, trailing window length (`days_back`) and the smoothing flag. -/
structure ViewParams where
  entities : List String
  metric : Metric
  window : ℤ
  smooth : Bool

/-- Maximum of the `date` column (`df["date"].max()`); `none` on an empty
frame (pandas returns NaT there). -/
def maxDate (l : List Record) : Option ℤ :=
  (l.map (fun r => r.date)).max?

/-- The filtering step of the Shaper: keep the selected cities, then keep
the dates within the trailing window ending at the maximum date of the
entity-filtered set (`cutoff = df_view["date"].max() -
Timedelta(days=days_back - 1)`; `df_view = df_view[df_view["date"] >=
cutoff]`).  On an empty selection the maximum is NaT and every comparison
with NaT is false, so the result stays empty. -/
def filterView (tbl : List Record) (sel : List String) (w : ℤ) :
    List Record :=
  let dfv := tbl.filter (fun r => sel.contains r.city)
  match maxDate dfv with
  | none => []
  | some m => dfv.filter (fun r => decide (m - (w - 1) ≤ r.date))

/-- Stable insertion of a record into a date-sorted list; used to model the
stable `sort_values(["city", "date"])` restricted to one city group. -/
def insertByDate (r : Record) : List Record → List Record
  | [] => [r]
  | x :: xs => if r.date ≤ x.date then r :: x :: xs else x :: insertByDate r xs

/-- Stable sort by date (the order of a city group after `sort_values`). -/
def sortByDate (l : List Record) : List Record :=
  l.foldr insertByDate []

/-- Insertion step of the ascending sort of the pivot's date index. -/
def insertInt (a : ℤ) : List ℤ → List ℤ
  | [] => [a]
  | x :: xs => if a ≤ x then a :: x :: xs else x :: insertInt a xs

/-- Ascending sort of the pivot's date index (`sort_index()`). -/
def sortInts (l : List ℤ) : List ℤ :=
  l.foldr insertInt []

/-- Insertion step of the sort of the pivot's column labels. -/
def insertStr (a : String) : List String → List String
  | [] => [a]
  | x :: xs => if a ≤ x then a :: x :: xs else x :: insertStr a xs

/-- Sorted column labels of `pivot_table` (pandas sorts the city columns). -/
def sortStrs (l : List String) : List String :=
  l.foldr insertStr []

/-- Trailing rolling mean with window 7 and `min_periods = 1`
(`s.rolling(7, min_periods=1).mean()`): entry `k` is the mean of the last
`min(k + 1, 7)` values, i.e. of the entries at indices `k+1-7 ≤ i ≤ k`
(truncated subtraction), divided by however many there are. -/
def rollingMean7 (xs : List ℚ) : List ℚ :=
  (List.range xs.length).map (fun k =>
    let win := (xs.drop (k + 1 - 7)).take (k + 1 - (k + 1 - 7))
    win.sum / (win.length : ℚ))

/-- Records of one city of the filtered view, sorted stably by date — the
group handed to the rolling mean by
`df_view.sort_values(["city", "date"]).groupby("city")`. -/
def cityRecordsSorted (dfv : List Record) (c : String) : List Record :=
  sortByDate (dfv.filter (fun r => r.city == c))

/-- The metric series of one city group, in date order. -/
def cityMetricSeries (dfv : List Record) (m : Metric) (c : String) :
    List ℚ :=
  (cityRecordsSorted dfv c).map (metricValue m)

/-- The `smoothed` column restricted to one city, in date order: the
rolling mean of the city's metric series. -/
def smoothedSeries (dfv : List Record) (m : Metric) (c : String) : List ℚ :=
  rollingMean7 (cityMetricSeries dfv m c)

/-- The `smoothed` column as (record, value) associations: each city group
in date order zipped with its rolling mean.  (`transform` writes these
values back to the original row positions; the association of a value to a
record is the same, only the row order of the intermediate frame differs.) -/
def smoothedPairs (dfv : List Record) (m : Metric) :
    List (Record × ℚ) :=
  ((dfv.map (fun r => r.city)).dedup).flatMap
    (fun c => (cityRecordsSorted dfv c).zip (smoothedSeries dfv m c))

/-- One cell of `pivot_table(index="date", columns="city", values=metric,
aggfunc="sum")`: `none` (NaN) when the (date, city) pair has no record in
the filtered view, otherwise the sum of the metric values of its records.
Note that the source passes `values=metric`, so the pivot always reads the
raw metric column. -/
def pivotCell (dfv : List Record) (m : Metric) (d : ℤ) (c : String) :
    Option ℚ :=
  let vs := (dfv.filter (fun r => r.date == d && r.city == c)).map
    (metricValue m)
  if vs.isEmpty then none else some vs.sum

/-- Wide table: ascending unique date index, one column per observed city,
and an optional value per cell (`none` models NaN). -/
structure WideTable where
  dates : List ℤ
  cities : List String
  cell : ℤ → String → Option ℚ

/-- The Shaper: filter into `df_view`, optionally compute the `smoothed`
column, and pivot (`df_view.pivot_table(index="date", columns="city",
values=metric, aggfunc="sum").sort_index()`).  The smoothed column is
computed when the flag is set, but `pivot_table` is called with
`values=metric`, so the cells always aggregate the raw metric column. -/
def shape (tbl : List Record) (p : ViewParams) : WideTable :=
  let dfv := filterView tbl p.entities p.window
  let _smoothedColumn := if p.smooth then smoothedPairs dfv p.metric else []
  { dates := sortInts ((dfv.map (fun r => r.date)).dedup),
    cities := sortStrs ((dfv.map (fun r => r.city)).dedup),
    cell := fun d c => pivotCell dfv p.metric d c }

/-- A concrete degenerate generator used to evaluate the model on small
inputs: `integers` returns the lower bound and `normal` returns the mean. -/
def constRng : RNG Unit where
  init := fun _ => ()
  integers := fun lo _ st => (lo, st)
  normal := fun mu _ st => (mu, st)

section MaxLemmas

lemma le_foldl_max (l : List ℤ) : ∀ a : ℤ, a ≤ l.foldl max a := by
  induction l with
  | nil => intro a; exact le_refl a
  | cons x xs ih =>
      intro a
      exact le_trans (le_max_left a x) (ih (max a x))

lemma le_foldl_max_of_mem {l : List ℤ} {x : ℤ} (hx : x ∈ l) :
    ∀ a : ℤ, x ≤ l.foldl max a := by
  induction l with
  | nil => cases hx
  | cons y ys ih =>
      intro a
      rcases List.mem_cons.mp hx with h | h
      · subst h
        exact le_trans (le_max_right a x) (le_foldl_max ys (max a x))
      · exact ih h (max a y)

lemma foldl_max_mem (l : List ℤ) : ∀ a : ℤ, l.foldl max a = a ∨ l.foldl max a ∈ l := by
  induction l with
  | nil => intro a; exact Or.inl rfl
  | cons x xs ih =>
      intro a
      rcases ih (max a x) with h | h
      · rcases max_choice a x with hm | hm
        · exact Or.inl (by rw [List.foldl_cons, h, hm])
        · refine Or.inr ?_
          rw [List.foldl_cons, h, hm]
          exact List.mem_cons_self x xs
      · exact Or.inr (List.mem_cons_of_mem x h)

lemma max?_eq_some_of_mem_ub {l : List ℤ} {m : ℤ} (hm : m ∈ l)
    (hub : ∀ x ∈ l, x ≤ m) : l.max? = some m := by
  cases l with
  | nil => cases hm
  | cons a as =>
      have hdef : (a :: as).max? = some (as.foldl max a) := rfl
      rw [hdef]
      congr 1
      apply le_antisymm
      · rcases foldl_max_mem as a with h | h
        · rw [h]; exact hub a (List.mem_cons_self a as)
        · exact hub _ (List.mem_cons_of_mem a h)
      · rcases List.mem_cons.mp hm with h | h
        · subst h; exact le_foldl_max as m
        · exact le_foldl_max_of_mem h a

lemma le_of_mem_of_max?_eq {l : List ℤ} {m x : ℤ}
    (h : l.max? = some m) (hx : x ∈ l) : x ≤ m := by
  cases l with
  | nil => cases hx
  | cons a as =>
      have hdef : (a :: as).max? = some (as.foldl max a) := rfl
      rw [hdef] at h
      have hm : as.foldl max a = m := Option.some.inj h
      rcases List.mem_cons.mp hx with hxa | hxm
      · subst hxa; rw [← hm]; exact le_foldl_max as x
      · rw [← hm]; exact le_foldl_max_of_mem hxm a

end MaxLemmas

section SortLemmas

lemma length_insertInt (a : ℤ) (l : List ℤ) :
    (insertInt a l).length = l.length + 1 := by
  induction l with
  | nil => rfl
  | cons x xs ih =>
      by_cases h : a ≤ x
      · simp [insertInt, h]
      · simp [insertInt, h, ih]

lemma length_sortInts (l : List ℤ) : (sortInts l).length = l.length := by
  induction l with
  | nil => rfl
  | cons x xs ih => simp [sortInts, List.foldr_cons, length_insertInt]
                    simpa [sortInts] using ih

lemma mem_insertInt {a x : ℤ} {l : List ℤ} :
    x ∈ insertInt a l ↔ x = a ∨ x ∈ l := by
  induction l with
  | nil => simp [insertInt]
  | cons y ys ih =>
      by_cases h : a ≤ y
      · simp [insertInt, h]
      · simp [insertInt, h, ih]
        tauto

lemma mem_sortInts {x : ℤ} {l : List ℤ} : x ∈ sortInts l ↔ x ∈ l := by
  induction l with
  | nil => simp [sortInts]
  | cons y ys ih =>
      simp only [sortInts, List.foldr_cons] at *
      rw [mem_insertInt, ih]
      simp

end SortLemmas

section RollingLemmas

lemma getD_rollingMean7 (xs : List ℚ) (j : Nat) (h : j < xs.length) :
    (rollingMean7 xs).getD j 0 =
      ((xs.drop (j + 1 - 7)).take (j + 1 - (j + 1 - 7))).sum /
        (((xs.drop (j + 1 - 7)).take (j + 1 - (j + 1 - 7))).length : ℚ) := by
  unfold rollingMean7
  rw [List.getD_eq_getElem?_getD, List.getElem?_map, List.getElem?_range h]
  rfl

lemma length_rollWin (xs : List ℚ) (j : Nat) (h : j < xs.length) :
    ((xs.drop (j + 1 - 7)).take (j + 1 - (j + 1 - 7))).length = min (j + 1) 7 := by
  rw [List.length_take, List.length_drop]
  omega

end RollingLemmas

section GeneratorLemmas

variable {σ : Type}

lemma genCityRows_map_date (g : RNG σ) (dates : List ℤ) (c : String)
    (la lo : ℚ) (st : σ) :
    ((genCityRows g dates c la lo st).1).map (fun r => r.date) = dates := by
  unfold genCityRows
  simp only [List.map_map]
  exact List.enum_map_snd dates

lemma length_genCityRows (g : RNG σ) (dates : List ℤ) (c : String)
    (la lo : ℚ) (st : σ) :
    (genCityRows g dates c la lo st).1.length = dates.length := by
  have h := congrArg List.length (genCityRows_map_date g dates c la lo st)
  simpa using h

lemma city_of_mem_genCityRows {g : RNG σ} {dates : List ℤ} {c : String}
    {la lo : ℚ} {st : σ} {r : Record}
    (hr : r ∈ (genCityRows g dates c la lo st).1) : r.city = c := by
  unfold genCityRows at hr
  simp only [List.mem_map] at hr
  obtain ⟨p, _, hr⟩ := hr
  subst hr
  rfl

lemma date_of_mem_genCityRows {g : RNG σ} {dates : List ℤ} {c : String}
    {la lo : ℚ} {st : σ} {r : Record}
    (hr : r ∈ (genCityRows g dates c la lo st).1) : r.date ∈ dates := by
  have hmap := genCityRows_map_date g dates c la lo st
  rw [← hmap]
  exact List.mem_map_of_mem (fun r => r.date) hr

lemma le_round_max (q : ℚ) : (10 : ℤ) ≤ round (max q 10) := by
  have h : ((10 : ℤ) : ℚ) ≤ max q 10 := by
    push_cast
    exact le_max_right q 10
  calc (10 : ℤ) = round ((10 : ℤ) : ℚ) := (round_intCast 10).symm
    _ ≤ round (max q 10) := by
        rw [round_eq, round_eq]
        exact Int.floor_mono (add_le_add_right h (1 / 2 : ℚ))

lemma orders_of_mem_genCityRows {g : RNG σ} {dates : List ℤ} {c : String}
    {la lo : ℚ} {st : σ} {r : Record}
    (hr : r ∈ (genCityRows g dates c la lo st).1) : 10 ≤ r.orders := by
  unfold genCityRows at hr
  simp only [List.mem_map] at hr
  obtain ⟨p, _, hr⟩ := hr
  subst hr
  exact le_round_max _

lemma genRows_length (g : RNG σ) (dates : List ℤ) :
    ∀ (cl : List (String × ℚ × ℚ)) (st : σ),
      (genRows g dates cl st).1.length = cl.length * dates.length := by
  intro cl
  induction cl with
  | nil => intro st; simp [genRows]
  | cons c rest ih =>
      intro st
      show ((genCityRows g dates c.1 c.2.1 c.2.2 st).1 ++ _).length = _
      rw [List.length_append, length_genCityRows,
        ih ((genCityRows g dates c.1 c.2.1 c.2.2 st).2), List.length_cons]
      ring

lemma city_of_mem_genRows {g : RNG σ} {dates : List ℤ} {r : Record} :
    ∀ {cl : List (String × ℚ × ℚ)} {st : σ},
      r ∈ (genRows g dates cl st).1 → r.city ∈ cl.map (fun x => x.1) := by
  intro cl
  induction cl with
  | nil => intro st hr; cases hr
  | cons c rest ih =>
      intro st hr
      rcases List.mem_append.mp hr with h | h
      · exact List.mem_cons.mpr (Or.inl (city_of_mem_genCityRows h))
      · exact List.mem_cons.mpr (Or.inr (ih h))

lemma date_of_mem_genRows {g : RNG σ} {dates : List ℤ} {r : Record} :
    ∀ {cl : List (String × ℚ × ℚ)} {st : σ},
      r ∈ (genRows g dates cl st).1 → r.date ∈ dates := by
  intro cl
  induction cl with
  | nil => intro st hr; cases hr
  | cons c rest ih =>
      intro st hr
      rcases List.mem_append.mp hr with h | h
      · exact date_of_mem_genCityRows h
      · exact ih h

lemma orders_of_mem_genRows {g : RNG σ} {dates : List ℤ} {r : Record} :
    ∀ {cl : List (String × ℚ × ℚ)} {st : σ},
      r ∈ (genRows g dates cl st).1 → 10 ≤ r.orders := by
  intro cl
  induction cl with
  | nil => intro st hr; cases hr
  | cons c rest ih =>
      intro st hr
      rcases List.mem_append.mp hr with h | h
      · exact orders_of_mem_genCityRows h
      · exact ih h

lemma filter_city_genRows (g : RNG σ) (dates : List ℤ) :
    ∀ (cl : List (String × ℚ × ℚ)) (st : σ) (c : String),
      (cl.map (fun x => x.1)).Nodup → c ∈ cl.map (fun x => x.1) →
      ((genRows g dates cl st).1.filter (fun r => r.city == c)).map
          (fun r => r.date) = dates := by
  intro cl
  induction cl with
  | nil => intro st c _ hc; cases hc
  | cons x rest ih =>
      intro st c hnd hc
      have hblock :
          (genRows g dates (x :: rest) st).1 =
            (genCityRows g dates x.1 x.2.1 x.2.2 st).1 ++
              (genRows g dates rest ((genCityRows g dates x.1 x.2.1 x.2.2 st).2)).1 := rfl
      rw [hblock, List.filter_append, List.map_append]
      simp only [List.map_cons, List.nodup_cons] at hnd
      rcases List.mem_cons.mp hc with hcx | hcrest
      · have h1 : (genCityRows g dates x.1 x.2.1 x.2.2 st).1.filter
            (fun r => r.city == c) = (genCityRows g dates x.1 x.2.1 x.2.2 st).1 := by
          apply List.filter_eq_self.mpr
          intro r hr
          simp [city_of_mem_genCityRows hr, hcx]
        have h2 : (genRows g dates rest ((genCityRows g dates x.1 x.2.1 x.2.2 st).2)).1.filter
            (fun r => r.city == c) = [] := by
          apply List.filter_eq_nil_iff.mpr
          intro r hr
          have hmem := city_of_mem_genRows hr
          simp only [beq_iff_eq]
          intro hcity
          rw [hcity, hcx] at hmem
          exact hnd.1 hmem
        rw [h1, h2, genCityRows_map_date]
        simp
      · have hne : x.1 ≠ c := by
          intro hx
          rw [hx] at hnd
          exact hnd.1 hcrest
        have h1 : (genCityRows g dates x.1 x.2.1 x.2.2 st).1.filter
            (fun r => r.city == c) = [] := by
          apply List.filter_eq_nil_iff.mpr
          intro r hr
          have hcity := city_of_mem_genCityRows hr
          simp only [beq_iff_eq]
          rw [hcity]
          exact hne
        rw [h1]
        simp only [List.map_nil, List.nil_append]
        exact ih _ c hnd.2 hcrest

lemma length_genCityPts (g : RNG σ) (c : String) (la lo : ℚ) :
    ∀ (n : Nat) (st : σ), (genCityPts g c la lo n st).1.length = n := by
  intro n
  induction n with
  | zero => intro st; rfl
  | succ k ih =>
      intro st
      show (_ :: _).length = k + 1
      rw [List.length_cons]
      congr 1
      apply ih

lemma length_genGeo (g : RNG σ) :
    ∀ (cl : List (String × ℚ × ℚ)) (st : σ),
      (genGeo g cl st).1.length = cl.length * 400 := by
  intro cl
  induction cl with
  | nil => intro st; simp [genGeo]
  | cons c rest ih =>
      intro st
      show ((genCityPts g c.1 c.2.1 c.2.2 400 st).1 ++ _).length = _
      rw [List.length_append, length_genCityPts,
        ih ((genCityPts g c.1 c.2.1 c.2.2 400 st).2), List.length_cons]
      ring

lemma dateRange_of_nonpos {today days : ℤ} (hd : days ≤ 0) :
    dateRange today days = [] := by
  unfold dateRange
  rw [if_pos hd]

lemma length_dateRange {today days : ℤ} (hd : 1 ≤ days) :
    (dateRange today days).length = days.toNat := by
  unfold dateRange
  rw [if_neg (by omega)]
  rw [List.length_map, List.length_range]

lemma le_today_of_mem_dateRange {today days x : ℤ}
    (hx : x ∈ dateRange today days) : x ≤ today := by
  unfold dateRange at hx
  by_cases h : days ≤ 0
  · rw [if_pos h] at hx; cases hx
  · rw [if_neg h] at hx
    simp only [List.mem_map, List.mem_range] at hx
    obtain ⟨i, hi, rfl⟩ := hx
    omega

lemma today_mem_dateRange {today days : ℤ} (hd : 1 ≤ days) :
    today ∈ dateRange today days := by
  unfold dateRange
  rw [if_neg (by omega)]
  simp only [List.mem_map, List.mem_range]
  refine ⟨days.toNat - 1, by omega, by omega⟩

lemma make_data_fst (g : RNG σ) (seed days today : ℤ) :
    (make_data g seed days today).1 =
      (genRows g (dateRange today days) cityList (g.init seed)).1 := rfl

lemma make_data_snd (g : RNG σ) (seed days today : ℤ) :
    (make_data g seed days today).2 =
      (genGeo g cityList
        (genRows g (dateRange today days) cityList (g.init seed)).2).1 := rfl

end GeneratorLemmas

section NilDatesLemma

lemma genRows_nil_dates {σ : Type} (g : RNG σ) :
    ∀ (cl : List (String × ℚ × ℚ)) (st : σ), (genRows g [] cl st).1 = [] := by
  intro cl
  induction cl with
  | nil => intro st; rfl
  | cons c rest ih =>
      intro st
      show (genCityRows g [] c.1 c.2.1 c.2.2 st).1 ++ _ = ([] : List Record)
      rw [ih, List.append_nil]
      rfl

end NilDatesLemma

/-- Concrete record used to evaluate the generator model: the Pune row of
`make_data constRng 42 1 0` (base 80, zero noise, trend −10, clipped at 10
and rounded to 70; revenue 70 × 350). -/
def puneRec : Record :=
  { date := 0, city := "Pune", orders := 70, revenue := 24500,
    lat := 18.5204, lon := 73.8567, weekday := "Thursday" }

/-- Concrete record: the Mumbai row of `make_data constRng 42 1 0`. -/
def mumbaiRec : Record :=
  { date := 0, city := "Mumbai", orders := 70, revenue := 29400,
    lat := 19.0760, lon := 72.8777, weekday := "Thursday" }

/-- Concrete record: the Delhi row of `make_data constRng 42 1 0`. -/
def delhiRec : Record :=
  { date := 0, city := "Delhi", orders := 70, revenue := 27300,
    lat := 28.6139, lon := 77.2090, weekday := "Thursday" }

/-- Concrete record: the Bengaluru row of `make_data constRng 42 1 0`. -/
def bengaluruRec : Record :=
  { date := 0, city := "Bengaluru", orders := 70, revenue := 28700,
    lat := 12.9716, lon := 77.5946, weekday := "Thursday" }

/-- C8: two calls of the Generator with the same seed, the same day count and
the same calendar day produce identical long-form tables (every record equal,
in the same order) and identical geo point lists: the model, with the call
date made explicit, is a pure function of (generator, seed, days, today). -/
theorem c8_determinism {σ : Type} (g : RNG σ) (s1 s2 d1 d2 t1 t2 : ℤ)
    (hs : s1 = s2) (hd : d1 = d2) (ht : t1 = t2) :
    make_data g s1 d1 t1 = make_data g s2 d2 t2 := by
  subst hs
  subst hd
  subst ht
  rfl

/-- Witness for C8 at seed 42, 120 days, call day 0. -/
theorem c8_determinism_witness :
    (42 : ℤ) = 42 ∧ (120 : ℤ) = 120 ∧ (0 : ℤ) = 0 ∧
      make_data constRng 42 120 0 = make_data constRng 42 120 0 :=
  ⟨rfl, rfl, rfl, c8_determinism constRng 42 42 120 120 0 0 rfl rfl rfl⟩

/-- C9: for every generator instance, seed, call day and positive day count,
the long-form table has exactly 4 × days rows (the four cities) and the geo
point list exactly 4 × 400 points. -/
theorem c9_row_counts {σ : Type} (g : RNG σ) (seed today days : ℤ)
    (hd : 1 ≤ days) :
    (make_data g seed days today).1.length = 4 * days.toNat ∧
      (make_data g seed days today).2.length = 4 * 400 := by
  constructor
  · rw [make_data_fst, genRows_length, length_dateRange hd]
    rfl
  · rw [make_data_snd, length_genGeo]
    rfl

/-- Witness for C9 with seed 42, 2 days, call day 0. -/
theorem c9_row_counts_witness :
    (1 : ℤ) ≤ 2 ∧
      ((make_data constRng 42 2 0).1.length = 4 * (2 : ℤ).toNat ∧
        (make_data constRng 42 2 0).2.length = 4 * 400) :=
  ⟨by decide, c9_row_counts constRng 42 0 2 (by decide)⟩

/-- C3 counterexample: at `days = 0` the Generator does not fail fast — it is
a total function that silently returns a long-form table with zero rows
(while still generating the 1600 geo points), contradicting the claimed
descriptive error. -/
theorem c3_counterexample :
    (make_data constRng 42 0 0).1 = [] ∧
      (make_data constRng 42 0 0).2.length = 1600 := by
  constructor
  · rw [make_data_fst, dateRange_of_nonpos (by decide)]
    exact genRows_nil_dates constRng cityList (constRng.init 42)
  · rw [make_data_snd, length_genGeo]
    rfl

/-- C3 amended: for every non-positive `days` the Generator raises no error
and silently produces a degenerate result — an empty long-form table (the
date range is empty because its start lies after its end) while the geo
cloud is still generated in full; validating `days` is left to the caller. -/
theorem c3_nonpositive_days {σ : Type} (g : RNG σ) (seed today days : ℤ)
    (hd : days ≤ 0) :
    (make_data g seed days today).1 = [] ∧
      (make_data g seed days today).2.length = 1600 := by
  constructor
  · rw [make_data_fst, dateRange_of_nonpos hd]
    exact genRows_nil_dates g cityList (g.init seed)
  · rw [make_data_snd, length_genGeo]
    rfl

/-- Witness for the amended C3 at `days = 0`. -/
theorem c3_nonpositive_days_witness :
    (0 : ℤ) ≤ 0 ∧
      ((make_data constRng 7 0 5).1 = [] ∧
        (make_data constRng 7 0 5).2.length = 1600) :=
  ⟨by decide, c3_nonpositive_days constRng 7 5 0 (by decide)⟩

/-- C7: every `orders` value of the generated long-form table is an integer
at least the configured floor 10 (an integer by construction of the `orders`
column, and at least 10 because the clip at 10 precedes the monotone
rounding), for every generator instance, seed, day count and call date. -/
theorem c7_orders_floor {σ : Type} (g : RNG σ) (seed days today : ℤ)
    (r : Record) (hr : r ∈ (make_data g seed days today).1) :
    10 ≤ r.orders := by
  rw [make_data_fst] at hr
  exact orders_of_mem_genRows hr

/-- Witness for C7: the Pune record of `make_data constRng 42 1 0` is in the
table and its orders value 70 is at least 10. -/
theorem c7_orders_floor_witness :
    puneRec ∈ (make_data constRng 42 1 0).1 ∧ 10 ≤ puneRec.orders := by
  have h : (make_data constRng 42 1 0).1 =
      [puneRec, mumbaiRec, delhiRec, bengaluruRec] := by
    with_unfolding_all rfl
  have hmem : puneRec ∈ (make_data constRng 42 1 0).1 := by
    rw [h]
    exact List.mem_cons_self _ _
  exact ⟨hmem, c7_orders_floor constRng 42 1 0 puneRec hmem⟩

/-- C2: the Shaper applied to any long-form table with an empty entity
selection yields an empty wide table — no date rows, no city columns, every
cell empty — and, being a total function, it raises nothing. -/
theorem c2_empty_selection (tbl : List Record) (m : Metric) (w : ℤ)
    (sm : Bool) :
    (shape tbl ⟨[], m, w, sm⟩).dates = [] ∧
      (shape tbl ⟨[], m, w, sm⟩).cities = [] ∧
      ∀ (d : ℤ) (c : String), (shape tbl ⟨[], m, w, sm⟩).cell d c = none := by
  have hdfv : filterView tbl [] w = [] := by
    unfold filterView
    have hfil : tbl.filter (fun r => ([] : List String).contains r.city) = [] := by
      simp
    rw [hfil]
    rfl
  refine ⟨?_, ?_, ?_⟩
  · simp [shape, hdfv, sortInts]
  · simp [shape, hdfv, sortStrs]
  · intro d c
    simp [shape, hdfv, pivotCell]

/-- Two-row table used to refute C1: one city "A" with orders 10 on day 0
and 30 on day 1, so the 7-day rolling mean on day 1 is 20 while the raw
value is 30. -/
def tblC1 : List Record :=
  [{ date := 0, city := "A", orders := 10, revenue := 0, lat := 0, lon := 0,
     weekday := "" },
   { date := 1, city := "A", orders := 30, revenue := 0, lat := 0, lon := 0,
     weekday := "" }]

/-- C1 counterexample: with the smoothing flag enabled, the wide-table cell
at (day 1, "A") holds the raw metric value 30 and not the smoothed value 20:
the pivot is built with `values=metric`, i.e. from the raw metric column,
not from the `smoothed` column. -/
theorem c1_counterexample :
    (shape tblC1 ⟨["A"], Metric.orders, 14, true⟩).cell 1 "A" = some 30 ∧
      (smoothedSeries (filterView tblC1 ["A"] 14) Metric.orders "A").getD 1 0 = 20 ∧
      (30 : ℚ) ≠ 20 := by
  refine ⟨?_, ?_, by decide⟩
  · with_unfolding_all rfl
  · with_unfolding_all rfl

/-- C1 amended: when smoothing is enabled the `smoothed` column is computed
and used in the long-form chart data, but the wide table produced by the
pivot is unaffected by the smoothing flag: every cell is the raw-metric
aggregate of the filtered view (the source calls `pivot_table` with
`values=metric`). -/
theorem c1_pivot_uses_raw_metric (tbl : List Record) (sel : List String)
    (m : Metric) (w d : ℤ) (c : String) :
    (shape tbl ⟨sel, m, w, true⟩).cell d c =
        (shape tbl ⟨sel, m, w, false⟩).cell d c ∧
      (shape tbl ⟨sel, m, w, true⟩).cell d c =
        pivotCell (filterView tbl sel w) m d c :=
  ⟨rfl, rfl⟩

/-- C6: in the wide table a (date, city) cell whose pair has no record in
the filtered view holds the missing marker `none`, which is distinct from
the numeric value `some 0`; a cell whose pair has (possibly duplicate)
records holds the sum of their metric values. -/
theorem c6_missing_and_duplicates (tbl : List Record) (sel : List String)
    (m : Metric) (w : ℤ) (sm : Bool) (d : ℤ) (c : String) :
    ((filterView tbl sel w).filter (fun r => r.date == d && r.city == c) = [] →
        (shape tbl ⟨sel, m, w, sm⟩).cell d c = none) ∧
      ((filterView tbl sel w).filter (fun r => r.date == d && r.city == c) ≠ [] →
        (shape tbl ⟨sel, m, w, sm⟩).cell d c =
          some ((((filterView tbl sel w).filter
              (fun r => r.date == d && r.city == c)).map (metricValue m)).sum)) ∧
      (none : Option ℚ) ≠ some 0 := by
  refine ⟨?_, ?_, by simp⟩
  · intro h
    show pivotCell (filterView tbl sel w) m d c = none
    simp only [pivotCell, h]
    rfl
  · intro h
    have hvs : ¬((((filterView tbl sel w).filter
        (fun r => r.date == d && r.city == c)).map (metricValue m)).isEmpty = true) := by
      simp only [List.isEmpty_iff, List.map_eq_nil_iff]
      exact h
    show pivotCell (filterView tbl sel w) m d c = _
    simp only [pivotCell]
    rw [if_neg hvs]

/-- Three-row table used to exercise C6: duplicate (day 0, "A") records with
orders 1 and 2, and a single (day 1, "B") record, so the (day 1, "A") cell
is missing. -/
def tblC6 : List Record :=
  [{ date := 0, city := "A", orders := 1, revenue := 0, lat := 0, lon := 0,
     weekday := "" },
   { date := 0, city := "A", orders := 2, revenue := 0, lat := 0, lon := 0,
     weekday := "" },
   { date := 1, city := "B", orders := 5, revenue := 0, lat := 0, lon := 0,
     weekday := "" }]

/-- Witness for C6: duplicate (day 0, "A") records sum to 3, the (day 1,
"A") cell is the missing marker. -/
theorem c6_missing_and_duplicates_witness :
    (shape tblC6 ⟨["A", "B"], Metric.orders, 14, false⟩).cell 0 "A" = some 3 ∧
      (shape tblC6 ⟨["A", "B"], Metric.orders, 14, false⟩).cell 1 "A" = none := by
  have h1 := c6_missing_and_duplicates tblC6 ["A", "B"] Metric.orders 14 false 0 "A"
  have h2 := c6_missing_and_duplicates tblC6 ["A", "B"] Metric.orders 14 false 1 "A"
  constructor
  · have hcell := h1.2.1 (by decide)
    rw [hcell]
    with_unfolding_all rfl
  · exact h2.1 (by decide)

/-- C4: with a non-empty selection whose entity-filtered records have
maximum date `m`, the Shaper's date filter keeps exactly the entity-filtered
records whose date lies in the trailing window `[m - (w - 1), m]` — every
kept record is in the window, and conversely every entity-filtered record
with date at least the cutoff is kept — with `m` the maximum of the
entity-filtered set, not of the whole table; hence every wide-table row date
lies in that window and there are at most `w` rows. -/
theorem c4_trailing_window (tbl : List Record) (sel : List String)
    (mt : Metric) (sm : Bool) (w m : ℤ) (_hw : 1 ≤ w)
    (hm : maxDate (tbl.filter (fun r => sel.contains r.city)) = some m) :
    (∀ r ∈ filterView tbl sel w, m - (w - 1) ≤ r.date ∧ r.date ≤ m) ∧
      (∀ r ∈ tbl.filter (fun r => sel.contains r.city),
        m - (w - 1) ≤ r.date → r ∈ filterView tbl sel w) ∧
      (∀ d ∈ (shape tbl ⟨sel, mt, w, sm⟩).dates,
        m - (w - 1) ≤ d ∧ d ≤ m) ∧
      (shape tbl ⟨sel, mt, w, sm⟩).dates.length ≤ w.toNat := by
  have hfv : filterView tbl sel w =
      (tbl.filter (fun r => sel.contains r.city)).filter
        (fun r => decide (m - (w - 1) ≤ r.date)) := by
    simp only [filterView, hm]
  have hkeep : ∀ r ∈ filterView tbl sel w, m - (w - 1) ≤ r.date ∧ r.date ≤ m := by
    intro r hr
    rw [hfv] at hr
    constructor
    · exact of_decide_eq_true (List.mem_filter.mp hr).2
    · have hrd : r ∈ tbl.filter (fun r => sel.contains r.city) :=
        List.mem_of_mem_filter hr
      have hmem : r.date ∈ (tbl.filter (fun r => sel.contains r.city)).map
          (fun r => r.date) := List.mem_map_of_mem _ hrd
      exact le_of_mem_of_max?_eq hm hmem
  have hcomplete : ∀ r ∈ tbl.filter (fun r => sel.contains r.city),
      m - (w - 1) ≤ r.date → r ∈ filterView tbl sel w := by
    intro r hr hdate
    rw [hfv]
    exact List.mem_filter.mpr ⟨hr, decide_eq_true hdate⟩
  have hshape : (shape tbl ⟨sel, mt, w, sm⟩).dates =
      sortInts (((filterView tbl sel w).map (fun r => r.date)).dedup) := rfl
  refine ⟨hkeep, hcomplete, ?_, ?_⟩
  · intro d hd
    rw [hshape] at hd
    have hd2 := List.mem_dedup.mp (mem_sortInts.mp hd)
    obtain ⟨r, hr, rfl⟩ := List.mem_map.mp hd2
    exact hkeep r hr
  · rw [hshape, length_sortInts]
    have hnd : (((filterView tbl sel w).map (fun r => r.date)).dedup).Nodup :=
      List.nodup_dedup _
    have hsub : (((filterView tbl sel w).map (fun r => r.date)).dedup).toFinset ⊆
        Finset.Icc (m - (w - 1)) m := by
      intro x hx
      rw [List.mem_toFinset] at hx
      obtain ⟨r, hr, rfl⟩ := List.mem_map.mp (List.mem_dedup.mp hx)
      rw [Finset.mem_Icc]
      exact hkeep r hr
    have hcard := List.toFinset_card_of_nodup hnd
    have hle := Finset.card_le_card hsub
    rw [hcard] at hle
    calc (((filterView tbl sel w).map (fun r => r.date)).dedup).length
        ≤ (Finset.Icc (m - (w - 1)) m).card := hle
      _ = (m + 1 - (m - (w - 1))).toNat := Int.card_Icc _ _
      _ = w.toNat := by congr 1; ring

/-- Three-row table used to exercise C4: city "A" only has day 0 while city
"B" also has day 100, so the "A"-filtered maximum (day 0) differs from the
global maximum (day 100). -/
def tblC4 : List Record :=
  [{ date := 0, city := "A", orders := 1, revenue := 0, lat := 0, lon := 0,
     weekday := "" },
   { date := 0, city := "B", orders := 2, revenue := 0, lat := 0, lon := 0,
     weekday := "" },
   { date := 100, city := "B", orders := 3, revenue := 0, lat := 0, lon := 0,
     weekday := "" }]

/-- Witness for C4 with selection {"A"} and window 5: the cutoff anchors at
"A"'s maximum day 0, not at the global maximum day 100. -/
theorem c4_trailing_window_witness :
    (1 : ℤ) ≤ 5 ∧
      maxDate (tblC4.filter
        (fun r => (["A"] : List String).contains r.city)) = some 0 ∧
      ((∀ r ∈ filterView tblC4 ["A"] 5, 0 - (5 - 1) ≤ r.date ∧ r.date ≤ 0) ∧
        (∀ r ∈ tblC4.filter (fun r => (["A"] : List String).contains r.city),
          0 - (5 - 1) ≤ r.date → r ∈ filterView tblC4 ["A"] 5) ∧
        (∀ d ∈ (shape tblC4 ⟨["A"], Metric.orders, 5, false⟩).dates,
          0 - (5 - 1) ≤ d ∧ d ≤ 0) ∧
        (shape tblC4 ⟨["A"], Metric.orders, 5, false⟩).dates.length ≤
          (5 : ℤ).toNat) :=
  ⟨by decide, by decide,
    c4_trailing_window tblC4 ["A"] Metric.orders false 5 0 (by decide) (by decide)⟩

lemma rollingMean7_cases (xs : List ℚ) (j : Nat) (h : j < xs.length) :
    (j = 0 → (rollingMean7 xs).getD j 0 = xs.getD 0 0) ∧
      (j + 1 ≤ 7 → (rollingMean7 xs).getD j 0 =
        (xs.take (j + 1)).sum / ((j : ℚ) + 1)) ∧
      (7 ≤ j + 1 → (rollingMean7 xs).getD j 0 =
        ((xs.drop (j + 1 - 7)).take 7).sum / 7) := by
  have hget := getD_rollingMean7 xs j h
  have hcase2 : j + 1 ≤ 7 → (rollingMean7 xs).getD j 0 =
      (xs.take (j + 1)).sum / ((j : ℚ) + 1) := by
    intro hj
    have e1 : j + 1 - 7 = 0 := by omega
    rw [hget, e1, Nat.sub_zero, List.drop_zero]
    have h3 : (xs.take (j + 1)).length = j + 1 := by
      rw [List.length_take]
      omega
    rw [h3]
    push_cast
    ring_nf
  refine ⟨?_, hcase2, ?_⟩
  · intro hj
    subst hj
    rw [hcase2 (by omega)]
    cases xs with
    | nil => exact absurd h (by simp)
    | cons a tl =>
        simp [List.take_succ_cons]
  · intro hj
    have e1 : j + 1 - (j + 1 - 7) = 7 := by omega
    rw [hget, e1]
    have h3 : ((xs.drop (j + 1 - 7)).take 7).length = 7 := by
      rw [List.length_take, List.length_drop]
      omega
    rw [h3]
    norm_num

/-- C5: when smoothing is enabled, within each entity's date-sorted group
the smoothed value on the first day equals the raw metric value, on day
`j + 1 ≤ 7` it equals the mean of the first `j + 1` raw values, and from
day 7 onward it equals the mean of the trailing 7 raw values of that
entity. -/
theorem c5_rolling_mean (dfv : List Record) (m : Metric) (c : String)
    (j : Nat) (h : j < (cityMetricSeries dfv m c).length) :
    (j = 0 → (smoothedSeries dfv m c).getD j 0 =
        (cityMetricSeries dfv m c).getD 0 0) ∧
      (j + 1 ≤ 7 → (smoothedSeries dfv m c).getD j 0 =
        ((cityMetricSeries dfv m c).take (j + 1)).sum / ((j : ℚ) + 1)) ∧
      (7 ≤ j + 1 → (smoothedSeries dfv m c).getD j 0 =
        (((cityMetricSeries dfv m c).drop (j + 1 - 7)).take 7).sum / 7) := by
  have hss : smoothedSeries dfv m c = rollingMean7 (cityMetricSeries dfv m c) := rfl
  rw [hss]
  exact rollingMean7_cases (cityMetricSeries dfv m c) j h

/-- Eight-day table for one city "A" with orders 1..8, used to exercise the
rolling mean at day 8 (index 7): the trailing-7 mean is (2+...+8)/7 = 5. -/
def tblC5 : List Record :=
  [{ date := 0, city := "A", orders := 1, revenue := 0, lat := 0, lon := 0,
     weekday := "" },
   { date := 1, city := "A", orders := 2, revenue := 0, lat := 0, lon := 0,
     weekday := "" },
   { date := 2, city := "A", orders := 3, revenue := 0, lat := 0, lon := 0,
     weekday := "" },
   { date := 3, city := "A", orders := 4, revenue := 0, lat := 0, lon := 0,
     weekday := "" },
   { date := 4, city := "A", orders := 5, revenue := 0, lat := 0, lon := 0,
     weekday := "" },
   { date := 5, city := "A", orders := 6, revenue := 0, lat := 0, lon := 0,
     weekday := "" },
   { date := 6, city := "A", orders := 7, revenue := 0, lat := 0, lon := 0,
     weekday := "" },
   { date := 7, city := "A", orders := 8, revenue := 0, lat := 0, lon := 0,
     weekday := "" }]

/-- Witness for C5 at index 7 of the eight-day series: the smoothed value is
the trailing-7 mean, concretely 5. -/
theorem c5_rolling_mean_witness :
    7 < (cityMetricSeries tblC5 Metric.orders "A").length ∧
      ((7 = 0 → (smoothedSeries tblC5 Metric.orders "A").getD 7 0 =
          (cityMetricSeries tblC5 Metric.orders "A").getD 0 0) ∧
        (7 + 1 ≤ 7 → (smoothedSeries tblC5 Metric.orders "A").getD 7 0 =
          ((cityMetricSeries tblC5 Metric.orders "A").take (7 + 1)).sum /
            ((7 : ℚ) + 1)) ∧
        (7 ≤ 7 + 1 → (smoothedSeries tblC5 Metric.orders "A").getD 7 0 =
          (((cityMetricSeries tblC5 Metric.orders "A").drop (7 + 1 - 7)).take 7).sum /
            7)) ∧
      (smoothedSeries tblC5 Metric.orders "A").getD 7 0 = 5 := by
  refine ⟨by decide, c5_rolling_mean tblC5 Metric.orders "A" 7 (by decide), ?_⟩
  with_unfolding_all rfl

/-- C10: on generated data all entities share the same date range, so each
entity's maximum date equals the global maximum (the call day), and for any
selection containing at least one generated city the Shaper's filtered-set
maximum — hence its cutoff — coincides with the global maximum. -/
theorem c10_shared_dates {σ : Type} (g : RNG σ) (seed today days : ℤ)
    (hd : 1 ≤ days) :
    (∀ c ∈ cityList.map (fun x => x.1),
        ((make_data g seed days today).1.filter (fun r => r.city == c)).map
            (fun r => r.date) = dateRange today days ∧
          maxDate ((make_data g seed days today).1.filter
            (fun r => r.city == c)) = some today) ∧
      maxDate (make_data g seed days today).1 = some today ∧
      (∀ sel : List String,
        (∃ c ∈ cityList.map (fun x => x.1), sel.contains c = true) →
          maxDate ((make_data g seed days today).1.filter
            (fun r => sel.contains r.city)) = some today) := by
  have hnd : (cityList.map (fun x => x.1)).Nodup := by decide
  have hdate_le : ∀ r ∈ (make_data g seed days today).1, r.date ≤ today := by
    intro r hr
    rw [make_data_fst] at hr
    exact le_today_of_mem_dateRange (date_of_mem_genRows hr)
  have hfc : ∀ c ∈ cityList.map (fun x => x.1),
      ((make_data g seed days today).1.filter (fun r => r.city == c)).map
        (fun r => r.date) = dateRange today days := by
    intro c hc
    rw [make_data_fst]
    exact filter_city_genRows g (dateRange today days) cityList (g.init seed) c hnd hc
  have hex : ∀ c ∈ cityList.map (fun x => x.1),
      ∃ r ∈ (make_data g seed days today).1, r.city = c ∧ r.date = today := by
    intro c hc
    have hmem : today ∈ ((make_data g seed days today).1.filter
        (fun r => r.city == c)).map (fun r => r.date) := by
      rw [hfc c hc]
      exact today_mem_dateRange hd
    obtain ⟨r, hr, hrd⟩ := List.mem_map.mp hmem
    refine ⟨r, List.mem_of_mem_filter hr, ?_, hrd⟩
    have := List.of_mem_filter hr
    simpa using this
  refine ⟨?_, ?_, ?_⟩
  · intro c hc
    refine ⟨hfc c hc, ?_⟩
    unfold maxDate
    rw [hfc c hc]
    exact max?_eq_some_of_mem_ub (today_mem_dateRange hd)
      (fun x hx => le_today_of_mem_dateRange hx)
  · obtain ⟨r, hr, _, hrd⟩ := hex "Pune" (by decide)
    unfold maxDate
    apply max?_eq_some_of_mem_ub
    · have hmem2 : r.date ∈ (make_data g seed days today).1.map
          (fun r => r.date) := List.mem_map_of_mem _ hr
      rw [hrd] at hmem2
      exact hmem2
    · intro x hx
      obtain ⟨s, hs, rfl⟩ := List.mem_map.mp hx
      exact hdate_le s hs
  · intro sel hsel
    obtain ⟨c, hc, hselc⟩ := hsel
    obtain ⟨r, hr, hrc, hrd⟩ := hex c hc
    have hrf : r ∈ (make_data g seed days today).1.filter
        (fun r => sel.contains r.city) := by
      apply List.mem_filter.mpr
      refine ⟨hr, ?_⟩
      rw [hrc]
      exact hselc
    unfold maxDate
    apply max?_eq_some_of_mem_ub
    · have hmem2 : r.date ∈ ((make_data g seed days today).1.filter
          (fun r => sel.contains r.city)).map (fun r => r.date) :=
        List.mem_map_of_mem _ hrf
      rw [hrd] at hmem2
      exact hmem2
    · intro x hx
      obtain ⟨s, hs, rfl⟩ := List.mem_map.mp hx
      exact hdate_le s (List.mem_of_mem_filter hs)

/-- Witness for C10 with the concrete generator, seed 42, one day ending at
day 0, and the selection {"Mumbai"}. -/
theorem c10_shared_dates_witness :
    (1 : ℤ) ≤ 1 ∧
      ((∀ c ∈ cityList.map (fun x => x.1),
          ((make_data constRng 42 1 0).1.filter (fun r => r.city == c)).map
              (fun r => r.date) = dateRange 0 1 ∧
            maxDate ((make_data constRng 42 1 0).1.filter
              (fun r => r.city == c)) = some 0) ∧
        maxDate (make_data constRng 42 1 0).1 = some 0 ∧
        (∀ sel : List String,
          (∃ c ∈ cityList.map (fun x => x.1), sel.contains c = true) →
            maxDate ((make_data constRng 42 1 0).1.filter
              (fun r => sel.contains r.city)) = some 0)) :=
  ⟨by decide, c10_shared_dates constRng 42 0 1 (by decide)⟩

end StreamlitApp
